import Mathlib

/-!
Shallow embedding of `src/lib.rs` (crate `owt-rust`): an optimal-well-temperament
solver.  The solver builds a design matrix, a target vector and a weight vector
from an `OWTCriteria` record and solves the weighted normal equations
`(Aᵀ W A) x = Aᵀ W b` by explicit inversion.

Embedding conventions:
* `f64` is embedded as `ℚ` (the source performs only field operations, so the
  exact-arithmetic embedding is faithful up to floating-point rounding).
* `i32` index arithmetic is embedded as `ℕ`; the single intermediate that can
  go negative (`neg_col = row % num_pitches - 1`) is computed in `ℤ`, exactly
  as the `i32` source computes it, and guarded by the source's own
  `neg_col >= 0` test before being used as an index.
* A Rust panic (out-of-bounds vector indexing, or the explicit panic with
  message "What!!" on a singular system) is embedded as `Except.error` with a
  `RustPanic` value recording which panic site fired.
* `DMat` is embedded as a total function `ℕ → ℕ → ℚ` together with the intended
  dimensions; `DVec` as `List ℚ`.
-/

/-- The panic sites of the source, used as the error type of the embedding:
out-of-bounds indexing into one of the three criteria vectors, or the
explicit panic (message "What!!") in `optimize_temperament` when the weighted
normal-equations matrix is not invertible. -/
inductive RustPanic where
  | idxIdealIntervals : RustPanic
  | idxIntervalWeights : RustPanic
  | idxKeyWeights : RustPanic
  | whatSingular : RustPanic
deriving DecidableEq, Repr

instance {ε α : Type} [DecidableEq ε] [DecidableEq α] : DecidableEq (Except ε α) := fun x y =>
  match x, y with
  | Except.ok a, Except.ok b =>
    if h : a = b then isTrue (by rw [h]) else isFalse (fun hc => h (Except.ok.inj hc))
  | Except.ok _, Except.error _ => isFalse (fun hc => Except.noConfusion hc)
  | Except.error _, Except.ok _ => isFalse (fun hc => Except.noConfusion hc)
  | Except.error e, Except.error f =>
    if h : e = f then isTrue (by rw [h]) else isFalse (fun hc => h (Except.error.inj hc))

/-- `struct OWTCriteria` of the source.  `num_pitches` is `i32` in the source;
every claim restricts it to values `≥ 2` (and the row loop it drives is empty
for values `< 2`), so it is embedded as `ℕ`. -/
structure OWTCriteria where
  title : String
  num_pitches : ℕ
  repeat_factor : ℚ
  ideal_intervals : List ℚ
  interval_weights : List ℚ
  key_weights : List ℚ

/-- One store `M[(i, j)] = v` into a matrix represented as a total function. -/
def matUpdate (M : ℕ → ℕ → ℚ) (i j : ℕ) (v : ℚ) : ℕ → ℕ → ℚ :=
  fun a b => if a = i ∧ b = j then v else M a b

/-- One iteration of the `for row_index in 0..nrows` loop of
`populate_source_matrix`: computes `neg_col` (in `ℤ`, as the `i32` source
does: it can be `-1`) and `pos_col`, and performs the two guarded stores.
The `-1` store happens first and the `+1` store second, as in the source. -/
def sourceMatrixStep (n : ℕ) (M : ℕ → ℕ → ℚ) (r : ℕ) : ℕ → ℕ → ℚ :=
  let neg_col : ℤ := (r % n : ℕ) - 1
  let pos_col : ℕ := (r % n + r / n) % n
  let M1 := if 0 ≤ neg_col ∧ neg_col < (n : ℤ) - 1 then
    matUpdate M r neg_col.toNat (-1) else M
  if pos_col < n - 1 then matUpdate M1 r pos_col 1 else M1

/-- `OWTCriteria::populate_source_matrix`: starts from the all-zero
`n·(n-1) × (n-1)` matrix and runs the row loop.  (The `0 ≤ pos_col` half of
the source's guard is automatic in `ℕ`.) -/
def populate_source_matrix (cr : OWTCriteria) : ℕ → ℕ → ℚ :=
  let n := cr.num_pitches
  (List.range (n * (n - 1))).foldl (sourceMatrixStep n) (fun _ _ => 0)

/-- Rust vector indexing `v[i]`: returns the element, or panics (embedded as
`Except.error e`) when the index is out of bounds. -/
def vecIndex (l : List ℚ) (i : ℕ) (e : RustPanic) : Except RustPanic ℚ :=
  match l[i]? with
  | some v => Except.ok v
  | none => Except.error e

/-- `OWTCriteria::populate_ideal_interval_vector`: the target vector, one
entry per `i in 0..n*(n-1)`, with `base = i / n`, `incr = i % n`,
`ed = base + incr`; the entry is `ideal_intervals[base]`, reduced by
`repeat_factor` when `ed ≥ n - 1`. -/
def populate_ideal_interval_vector (cr : OWTCriteria) : Except RustPanic (List ℚ) :=
  let n := cr.num_pitches
  (List.range (n * (n - 1))).mapM fun i =>
    let base := i / n
    let incr := i % n
    let ed := base + incr
    if ed < n - 1 then
      vecIndex cr.ideal_intervals base RustPanic.idxIdealIntervals
    else
      (vecIndex cr.ideal_intervals base RustPanic.idxIdealIntervals).map
        (fun v => v - cr.repeat_factor)

/-- `OWTCriteria::populate_weights_vector`: one entry per
`i in 0..n*(n-1)`, the product `interval_weights[i / n] * key_weights[i % n]`. -/
def populate_weights_vector (cr : OWTCriteria) : Except RustPanic (List ℚ) :=
  let n := cr.num_pitches
  (List.range (n * (n - 1))).mapM fun i => do
    let iw ← vecIndex cr.interval_weights (i / n) RustPanic.idxIntervalWeights
    let kw ← vecIndex cr.key_weights (i % n) RustPanic.idxKeyWeights
    pure (iw * kw)

/-- The `DMat` built by `populate_source_matrix`, as a `Matrix` with its
intended dimensions `n·(n-1) × (n-1)`. -/
def designMat (n : ℕ) (Af : ℕ → ℕ → ℚ) : Matrix (Fin (n * (n - 1))) (Fin (n - 1)) ℚ :=
  Matrix.of fun i j => Af i j

/-- `DMat::from_diag(&self.populate_weights_vector())`: the diagonal weight
matrix `W`. -/
def weightMat (n : ℕ) (wl : List ℚ) : Matrix (Fin (n * (n - 1))) (Fin (n * (n - 1))) ℚ :=
  Matrix.diagonal fun i => wl.getD i 0

/-- The target vector as a `Fin`-indexed vector. -/
def targetVec (n : ℕ) (bl : List ℚ) : Fin (n * (n - 1)) → ℚ :=
  fun i => bl.getD i 0

/-- The weighted normal-equations matrix `M = Aᵀ W A` that the source
computes as `&source_matrix.transpose() * &weights_vector * &source_matrix`. -/
def normalMat (n : ℕ) (Af : ℕ → ℕ → ℚ) (wl : List ℚ) : Matrix (Fin (n - 1)) (Fin (n - 1)) ℚ :=
  (designMat n Af).transpose * weightMat n wl * designMat n Af

/-- The tail of `optimize_temperament` once the three builders have run:
either detects a singular `M = Aᵀ W A` (nalgebra's `inv()` returns `None`
exactly when Gauss-Jordan elimination finds no pivot, i.e. over exact
arithmetic when `det M = 0`), reproducing the source's panic with message
"What!!", or returns `x = M⁻¹ Aᵀ W b` (with `M⁻¹ = det⁻¹ • adjugate M`,
which equals the matrix inverse whenever `det M ≠ 0`) as a list. -/
def solveWLS (n : ℕ) (Af : ℕ → ℕ → ℚ) (bl wl : List ℚ) : Except RustPanic (List ℚ) :=
  let M := normalMat n Af wl
  if M.det = 0 then Except.error RustPanic.whatSingular
  else Except.ok (List.ofFn
    ((M.det⁻¹ • M.adjugate * (designMat n Af).transpose * weightMat n wl).mulVec
      (targetVec n bl)))

/-- `OWTCriteria::optimize_temperament`: builds the design matrix (first, and
infallibly), then the target vector, then the weight vector — propagating the
panic of whichever builder fails first, in source order — and solves the
weighted normal equations. -/
def optimize_temperament (cr : OWTCriteria) : Except RustPanic (List ℚ) :=
  let source_matrix := populate_source_matrix cr
  match populate_ideal_interval_vector cr with
  | Except.error e => Except.error e
  | Except.ok bl =>
    match populate_weights_vector cr with
    | Except.error e => Except.error e
    | Except.ok wl => solveWLS cr.num_pitches source_matrix bl wl

/-- The value `A[r, c]` of the design matrix in closed form, for rows
`r < n·(n-1)` (proved equal to the fold in `populate_source_matrix_entry`). -/
def sourceEntry (n r c : ℕ) : ℚ :=
  let key := r % n
  let ic := r / n
  let pos := (key + ic) % n
  if pos < n - 1 ∧ c = pos then 1
  else if 1 ≤ key ∧ key < n ∧ c = key - 1 then -1
  else 0

/-- The set of columns of row `r` holding a nonzero entry, among the
`ncols` real columns of the matrix. -/
def rowSupport (A : ℕ → ℕ → ℚ) (ncols r : ℕ) : Finset ℕ :=
  (Finset.range ncols).filter (fun c => A r c ≠ 0)

/-- `cr` with every entry of `interval_weights` multiplied by the constant
`c` (the rescaling considered by the spec's invariance property). -/
def scaleIntervalWeights (cr : OWTCriteria) (c : ℚ) : OWTCriteria :=
  { cr with interval_weights := cr.interval_weights.map fun x => c * x }

/-- The criteria of the source's test module (`get_criteria`):
`1.0e-6 = 1/1000000`, `1.0e-4 = 1/10000`. -/
def testCriteria : OWTCriteria where
  title := "Testing"
  num_pitches := 3
  repeat_factor := 1200
  ideal_intervals := [0, 702]
  interval_weights := [1/1000000, 1]
  key_weights := [1, 1/10000, 1]

/-- The target vector the source's test `test_populate_ideal_interval_vector`
expects for `testCriteria`. -/
def bTest : List ℚ := [0, 0, -1200, 702, -498, -498]

/-- The weight vector the source's test `test_populate_weights_vector`
expects for `testCriteria` (`1.0e-10 = 1/10000000000`). -/
def wTest : List ℚ := [1/1000000, 1/10000000000, 1/1000000, 1, 1/10000, 1]

/-- The exact rational tuning vector the embedded solver returns on
`testCriteria`; numerically `[204.0589…, 702.0297…]`. -/
def xTest : List ℚ := [33346453308500/163415841617, 114722772308500/163415841617]

/-- A criteria set whose weighted normal-equations matrix is singular:
`n = 2` with the single interval weight equal to `0`, so `M = Aᵀ W A = 0`. -/
def singularCriteria : OWTCriteria where
  title := "Singular"
  num_pitches := 2
  repeat_factor := 1200
  ideal_intervals := [600]
  interval_weights := [0]
  key_weights := [1, 1]

/-- `testCriteria` with an over-long `ideal_intervals` (3 entries instead of
`num_pitches - 1 = 2`): a precondition violation in the sense of the spec. -/
def overlongCriteria : OWTCriteria :=
  { testCriteria with ideal_intervals := [0, 702, 100] }

/-- A criteria set with `num_pitches = 1 < 2`: a precondition violation in
the sense of the spec. -/
def degenerateCriteria : OWTCriteria :=
  { testCriteria with num_pitches := 1 }

/-! ### Generic helper lemmas -/

lemma except_ok_bind {ε α β : Type} (a : α) (f : α → Except ε β) :
    (Except.ok a : Except ε α) >>= f = f a := rfl

lemma except_ok_map {ε α β : Type} (a : α) (f : α → β) :
    Except.map f (Except.ok a : Except ε α) = Except.ok (f a) := rfl

lemma except_error_map {ε α β : Type} (e : ε) (f : α → β) :
    Except.map f (Except.error e : Except ε α) = Except.error e := rfl

/-- If `f` succeeds pointwise on `l` with values `g`, then `l.mapM f`
succeeds with `l.map g`. -/
lemma mapM_ok_of_forall {ε : Type} (f : ℕ → Except ε ℚ) (g : ℕ → ℚ) (l : List ℕ)
    (h : ∀ a ∈ l, f a = Except.ok (g a)) : l.mapM f = Except.ok (l.map g) := by
  induction l with
  | nil => rfl
  | cons a l ih =>
    rw [List.mapM_cons, h a (List.mem_cons_self a l),
      ih (fun x hx => h x (List.mem_cons_of_mem a hx))]
    rfl

/-- If `f2` is `f1` post-composed with `g` (on the `ok` branch), then
`l.mapM f2` is `l.mapM f1` with `g` mapped over the result. -/
lemma mapM_map_of_forall {ε : Type} (f1 f2 : ℕ → Except ε ℚ) (g : ℚ → ℚ) (l : List ℕ)
    (h : ∀ a ∈ l, f2 a = Except.map g (f1 a)) :
    l.mapM f2 = Except.map (List.map g) (l.mapM f1) := by
  induction l with
  | nil => rfl
  | cons a l ih =>
    rw [List.mapM_cons, List.mapM_cons, h a (List.mem_cons_self a l),
      ih (fun x hx => h x (List.mem_cons_of_mem a hx))]
    cases f1 a with
    | error e => rfl
    | ok v =>
      cases hl : l.mapM f1 with
      | error e => rw [except_ok_map, except_ok_bind, except_ok_bind]; rfl
      | ok ys => rw [except_ok_map, except_ok_bind, except_ok_bind]; rfl

/-- Successful indexing: if `i` is in bounds then `vecIndex` returns the
element (expressed through `getD`). -/
lemma vecIndex_ok (l : List ℚ) (i : ℕ) (e : RustPanic) (h : i < l.length) :
    vecIndex l i e = Except.ok (l.getD i 0) := by
  rw [vecIndex, List.getElem?_eq_getElem h, List.getD_eq_getElem _ _ h]

lemma getD_map_mul (c : ℚ) (l : List ℚ) (i : ℕ) :
    (l.map fun x => c * x).getD i 0 = c * l.getD i 0 := by
  induction l generalizing i with
  | nil => simp
  | cons a l ih => cases i with
    | zero => simp
    | succ j => simpa using ih j

/-! ### Evaluation of the pipeline on the test criteria -/

lemma test_ideal_eval : populate_ideal_interval_vector testCriteria = Except.ok bTest := by
  show (List.range (3 * (3 - 1))).mapM _ = _
  rw [show List.range (3 * (3 - 1)) = [0, 1, 2, 3, 4, 5] from by decide]
  simp only [List.mapM, List.mapM.loop, testCriteria, vecIndex]
  norm_num [except_ok_bind, except_ok_map, bTest]

lemma test_weights_eval : populate_weights_vector testCriteria = Except.ok wTest := by
  show (List.range (3 * (3 - 1))).mapM _ = _
  rw [show List.range (3 * (3 - 1)) = [0, 1, 2, 3, 4, 5] from by decide]
  simp only [List.mapM, List.mapM.loop, testCriteria, vecIndex]
  norm_num [except_ok_bind, except_ok_map, wTest]

lemma test_design_eval : designMat 3 (populate_source_matrix testCriteria) =
    !![1,0; -1,1; 0,-1; 0,1; -1,0; 1,-1] := by
  ext i j
  fin_cases i <;> fin_cases j <;> decide

lemma test_weight_design :
    weightMat 3 wTest * !![(1:ℚ),0; -1,1; 0,-1; 0,1; -1,0; 1,-1] =
    !![1/1000000, 0; -1/10000000000, 1/10000000000; 0, -1/1000000;
       0, 1; -1/10000, 0; 1, -1] := by
  ext i j
  rw [weightMat, Matrix.diagonal_mul]
  fin_cases i <;> fin_cases j <;> norm_num [wTest]

lemma test_normal_eval : normalMat 3 (populate_source_matrix testCriteria) wTest =
    !![10001010001/10000000000, -10000000001/10000000000;
       -10000000001/10000000000, 20000010001/10000000000] := by
  rw [normalMat, Matrix.mul_assoc, test_design_eval, test_weight_design]
  ext i j
  fin_cases i <;> fin_cases j <;>
    simp [Matrix.mul_apply, Fin.sum_univ_succ, Matrix.transpose_apply] <;> norm_num

lemma test_wb_eval : (weightMat 3 wTest).mulVec (targetVec 3 bTest) =
    ![0, 0, -3/2500, 702, -249/5000, -498] := by
  funext x
  rw [weightMat, Matrix.mulVec_diagonal]
  fin_cases x <;> norm_num [wTest, bTest, targetVec]

lemma test_u_eval :
    (!![(1:ℚ),0; -1,1; 0,-1; 0,1; -1,0; 1,-1]).transpose.mulVec
      ![0, 0, -3/2500, 702, -249/5000, -498] = ![-2489751/5000, 3000003/2500] := by
  funext x
  fin_cases x <;>
    simp [Matrix.mulVec, Matrix.dotProduct, Fin.sum_univ_succ, Matrix.transpose_apply] <;>
    norm_num

lemma test_solve_eval :
    solveWLS 3 (populate_source_matrix testCriteria) bTest wTest = Except.ok xTest := by
  rw [solveWLS]
  simp only [test_normal_eval]
  rw [Matrix.det_fin_two_of, Matrix.adjugate_fin_two_of]
  rw [if_neg (by norm_num)]
  rw [Matrix.mul_assoc, ← Matrix.mulVec_mulVec, ← Matrix.mulVec_mulVec, test_wb_eval,
    test_design_eval, test_u_eval]
  rw [xTest]
  simp only [List.ofFn_succ, List.ofFn_zero]
  norm_num [Matrix.mulVec, Matrix.dotProduct, Fin.sum_univ_succ, Matrix.smul_apply]

lemma opt_test_eval : optimize_temperament testCriteria = Except.ok xTest := by
  rw [optimize_temperament, test_ideal_eval, test_weights_eval]
  exact test_solve_eval

/-! ### Evaluation on the singular criteria (`C1`) -/

lemma singular_ideal_eval :
    populate_ideal_interval_vector singularCriteria = Except.ok [600, -600] := by
  show (List.range (2 * (2 - 1))).mapM _ = _
  rw [show List.range (2 * (2 - 1)) = [0, 1] from by decide]
  simp only [List.mapM, List.mapM.loop, singularCriteria, vecIndex]
  norm_num [except_ok_bind, except_ok_map]

lemma singular_weights_eval :
    populate_weights_vector singularCriteria = Except.ok [0, 0] := by
  show (List.range (2 * (2 - 1))).mapM _ = _
  rw [show List.range (2 * (2 - 1)) = [0, 1] from by decide]
  simp only [List.mapM, List.mapM.loop, singularCriteria, vecIndex]
  norm_num [except_ok_bind, except_ok_map]

lemma singular_weight_zero : weightMat 2 [0, 0] = 0 := by
  rw [weightMat, show (fun i : Fin (2 * (2 - 1)) => ([0, 0] : List ℚ).getD i 0) =
    (fun _ => 0) from by funext i; fin_cases i <;> norm_num]
  exact Matrix.diagonal_zero

lemma singular_det_zero :
    (normalMat 2 (populate_source_matrix singularCriteria) [0, 0]).det = 0 := by
  rw [normalMat, singular_weight_zero, Matrix.mul_zero, Matrix.zero_mul]
  exact Matrix.det_zero (by exact ⟨0⟩)

lemma opt_singular_eval :
    optimize_temperament singularCriteria = Except.error RustPanic.whatSingular := by
  rw [optimize_temperament, singular_ideal_eval, singular_weights_eval]
  show solveWLS 2 _ _ _ = _
  rw [solveWLS]
  rw [if_pos singular_det_zero]

/-! ### Evaluation on the precondition-violating criteria (`C7`) -/

lemma overlong_ideal_eval :
    populate_ideal_interval_vector overlongCriteria = Except.ok bTest := by
  show (List.range (3 * (3 - 1))).mapM _ = _
  rw [show List.range (3 * (3 - 1)) = [0, 1, 2, 3, 4, 5] from by decide]
  simp only [List.mapM, List.mapM.loop, overlongCriteria, testCriteria, vecIndex]
  norm_num [except_ok_bind, except_ok_map, bTest]

lemma overlong_weights_eval :
    populate_weights_vector overlongCriteria = Except.ok wTest := by
  show (List.range (3 * (3 - 1))).mapM _ = _
  rw [show List.range (3 * (3 - 1)) = [0, 1, 2, 3, 4, 5] from by decide]
  simp only [List.mapM, List.mapM.loop, overlongCriteria, testCriteria, vecIndex]
  norm_num [except_ok_bind, except_ok_map, wTest]

lemma opt_overlong_eval : optimize_temperament overlongCriteria = Except.ok xTest := by
  rw [optimize_temperament, overlong_ideal_eval, overlong_weights_eval]
  exact test_solve_eval

lemma degenerate_det_one (Af : ℕ → ℕ → ℚ) (wl : List ℚ) :
    (normalMat 1 Af wl).det = 1 := by
  haveI h : IsEmpty (Fin (1 - 1)) := ⟨fun i => absurd i.2 (by norm_num)⟩
  exact Matrix.det_isEmpty

lemma opt_degenerate_eval : optimize_temperament degenerateCriteria = Except.ok [] := by
  rw [optimize_temperament]
  rw [show populate_ideal_interval_vector degenerateCriteria = Except.ok [] from rfl]
  rw [show populate_weights_vector degenerateCriteria = Except.ok [] from rfl]
  show solveWLS 1 _ _ _ = _
  rw [solveWLS]
  rw [degenerate_det_one]
  rw [if_neg one_ne_zero]
  congr 1

/-! ### Closed form of the design-matrix fold -/

lemma sourceMatrixStep_ne (n : ℕ) (M : ℕ → ℕ → ℚ) (r a b : ℕ) (h : a ≠ r) :
    sourceMatrixStep n M r a b = M a b := by
  simp only [sourceMatrixStep]
  split_ifs <;> simp_all [matUpdate]

lemma foldl_step_ne (n : ℕ) (l : List ℕ) (M : ℕ → ℕ → ℚ) (a b : ℕ) (h : a ∉ l) :
    (l.foldl (sourceMatrixStep n) M) a b = M a b := by
  induction l generalizing M with
  | nil => rfl
  | cons x l ih =>
    rw [List.foldl_cons, ih _ (fun hm => h (List.mem_cons_of_mem x hm))]
    exact sourceMatrixStep_ne n M x a b (fun he => h (he ▸ List.mem_cons_self x l))

lemma sourceMatrixStep_self (n : ℕ) (M : ℕ → ℕ → ℚ) (r b : ℕ) :
    sourceMatrixStep n M r r b =
      if (r % n + r / n) % n < n - 1 ∧ b = (r % n + r / n) % n then 1
      else if 1 ≤ r % n ∧ r % n < n ∧ b = r % n - 1 then -1
      else M r b := by
  have ht : ((((r % n : ℕ) : ℤ)) - 1).toNat = r % n - 1 := by omega
  simp only [sourceMatrixStep, ht]
  split_ifs <;>
    (try simp only [matUpdate, eq_self_iff_true, true_and]) <;>
    (try split_ifs) <;>
    first | rfl | (exfalso; omega)

lemma foldl_range_entry (n sz r c : ℕ) (hr : r < sz) :
    ((List.range sz).foldl (sourceMatrixStep n) (fun _ _ => 0)) r c = sourceEntry n r c := by
  induction sz with
  | zero => omega
  | succ m ih =>
    rw [List.range_succ, List.foldl_append, List.foldl_cons, List.foldl_nil]
    rcases Nat.lt_or_ge r m with hlt | hge
    · rw [sourceMatrixStep_ne n _ m r c (by omega)]
      exact ih hlt
    · have heq : r = m := by omega
      subst heq
      rw [sourceMatrixStep_self, foldl_step_ne n _ _ r c (by simp [List.mem_range])]
      rfl

/-- The design matrix in closed form, on the real rows. -/
lemma populate_source_matrix_entry (cr : OWTCriteria) (r c : ℕ)
    (hr : r < cr.num_pitches * (cr.num_pitches - 1)) :
    populate_source_matrix cr r c = sourceEntry cr.num_pitches r c := by
  rw [populate_source_matrix]
  exact foldl_range_entry cr.num_pitches _ r c hr

lemma populate_source_matrix_row_oob (cr : OWTCriteria) (r c : ℕ)
    (hr : cr.num_pitches * (cr.num_pitches - 1) ≤ r) :
    populate_source_matrix cr r c = 0 := by
  rw [populate_source_matrix]
  exact foldl_step_ne _ _ _ r c (by simp [List.mem_range]; omega)

lemma sourceMatrixStep_col_oob (n : ℕ) (M : ℕ → ℕ → ℚ) (r a b : ℕ)
    (hM : M a b = 0) (hb : n - 1 ≤ b) :
    sourceMatrixStep n M r a b = 0 := by
  simp only [sourceMatrixStep]
  split_ifs <;>
    (try simp only [matUpdate, eq_self_iff_true, true_and]) <;>
    (try split_ifs) <;>
    first | exact hM | (exfalso; omega)

lemma foldl_col_oob (n : ℕ) (l : List ℕ) (M : ℕ → ℕ → ℚ)
    (hM : ∀ x y, n - 1 ≤ y → M x y = 0) (a b : ℕ) (hb : n - 1 ≤ b) :
    (l.foldl (sourceMatrixStep n) M) a b = 0 := by
  induction l generalizing M with
  | nil => exact hM a b hb
  | cons x l ih =>
    rw [List.foldl_cons]
    exact ih _ (fun p q hq => sourceMatrixStep_col_oob n M x p q (hM p q hq) hq)

lemma populate_source_matrix_col_oob (cr : OWTCriteria) (r c : ℕ)
    (hc : cr.num_pitches - 1 ≤ c) : populate_source_matrix cr r c = 0 := by
  rw [populate_source_matrix]
  exact foldl_col_oob _ _ _ (fun _ _ _ => rfl) r c hc

/-! ### Index arithmetic -/

lemma interval_class_lt (n r : ℕ) (hn : 0 < n) (hr : r < n * (n - 1)) : r / n < n - 1 :=
  (Nat.div_lt_iff_lt_mul hn).mpr (by rw [Nat.mul_comm (n - 1) n]; exact hr)

lemma pos_ne_neg_aux (n K I : ℕ) (hkey : 1 ≤ K) (hK : K < n) (hI : I < n - 1) :
    (K + I) % n ≠ K - 1 := by
  intro he
  rcases Nat.lt_or_ge (K + I) n with hlt | hge
  · rw [Nat.mod_eq_of_lt hlt] at he
    omega
  · rw [Nat.mod_eq_sub_mod hge, Nat.mod_eq_of_lt (by omega)] at he
    omega

/-- The `+1` column and the `-1` column of a row never coincide: that would
force `interval_class = n - 1`, which cannot happen on a real row. -/
lemma pos_ne_neg (n r : ℕ) (h2 : 2 ≤ n) (hr : r < n * (n - 1)) (hkey : 1 ≤ r % n) :
    (r % n + r / n) % n ≠ r % n - 1 :=
  pos_ne_neg_aux n (r % n) (r / n) hkey (Nat.mod_lt _ (by omega))
    (interval_class_lt n r (by omega) hr)

lemma key_zero_pos_lt (n r : ℕ) (h2 : 2 ≤ n) (hr : r < n * (n - 1)) (hkey : r % n = 0) :
    (r % n + r / n) % n < n - 1 := by
  have hic : r / n < n - 1 := interval_class_lt n r (by omega) hr
  rw [hkey, Nat.zero_add, Nat.mod_eq_of_lt (by omega)]
  exact hic

/-! ### The support of a design-matrix row -/

lemma sourceEntry_values (n r c : ℕ) :
    sourceEntry n r c = 0 ∨ sourceEntry n r c = 1 ∨ sourceEntry n r c = -1 := by
  rw [sourceEntry]
  split_ifs <;> simp

lemma sourceEntry_ne_zero_iff (n r c : ℕ) :
    sourceEntry n r c ≠ 0 ↔
      ((r % n + r / n) % n < n - 1 ∧ c = (r % n + r / n) % n) ∨
      (1 ≤ r % n ∧ r % n < n ∧ c = r % n - 1) := by
  rw [sourceEntry]
  split_ifs with h1 h2
  · exact iff_of_true one_ne_zero (Or.inl h1)
  · exact iff_of_true (by norm_num) (Or.inr h2)
  · exact iff_of_false (by norm_num) (fun hc => hc.elim h1 h2)

lemma rowSupport_mem (cr : OWTCriteria) (h2 : 2 ≤ cr.num_pitches) (r : ℕ)
    (hr : r < cr.num_pitches * (cr.num_pitches - 1)) (c : ℕ) :
    c ∈ rowSupport (populate_source_matrix cr) (cr.num_pitches - 1) r ↔
      (((r % cr.num_pitches + r / cr.num_pitches) % cr.num_pitches < cr.num_pitches - 1 ∧
        c = (r % cr.num_pitches + r / cr.num_pitches) % cr.num_pitches) ∨
       (1 ≤ r % cr.num_pitches ∧ c = r % cr.num_pitches - 1)) := by
  have hkeylt : r % cr.num_pitches < cr.num_pitches := Nat.mod_lt _ (by omega)
  rw [rowSupport, Finset.mem_filter, Finset.mem_range,
    populate_source_matrix_entry cr r c hr, sourceEntry_ne_zero_iff]
  constructor
  · rintro ⟨_, hpc | hnc⟩
    · exact Or.inl ⟨hpc.1, hpc.2⟩
    · exact Or.inr ⟨hnc.1, hnc.2.2⟩
  · rintro (⟨hpos, hc⟩ | ⟨hkey, hc⟩)
    · exact ⟨by omega, Or.inl ⟨hpos, hc⟩⟩
    · exact ⟨by omega, Or.inr ⟨hkey, hkeylt, hc⟩⟩

lemma rowSupport_two (cr : OWTCriteria) (h2 : 2 ≤ cr.num_pitches) (r : ℕ)
    (hr : r < cr.num_pitches * (cr.num_pitches - 1)) (hkey : 1 ≤ r % cr.num_pitches)
    (hpos : (r % cr.num_pitches + r / cr.num_pitches) % cr.num_pitches < cr.num_pitches - 1) :
    rowSupport (populate_source_matrix cr) (cr.num_pitches - 1) r =
      {(r % cr.num_pitches + r / cr.num_pitches) % cr.num_pitches, r % cr.num_pitches - 1} := by
  ext c
  rw [rowSupport_mem cr h2 r hr c, Finset.mem_insert, Finset.mem_singleton]
  constructor
  · rintro (⟨_, hc⟩ | ⟨_, hc⟩)
    · exact Or.inl hc
    · exact Or.inr hc
  · rintro (hc | hc)
    · exact Or.inl ⟨hpos, hc⟩
    · exact Or.inr ⟨hkey, hc⟩

lemma rowSupport_one_keyzero (cr : OWTCriteria) (h2 : 2 ≤ cr.num_pitches) (r : ℕ)
    (hr : r < cr.num_pitches * (cr.num_pitches - 1)) (hkey : r % cr.num_pitches = 0) :
    rowSupport (populate_source_matrix cr) (cr.num_pitches - 1) r =
      {(r % cr.num_pitches + r / cr.num_pitches) % cr.num_pitches} := by
  ext c
  rw [rowSupport_mem cr h2 r hr c, Finset.mem_singleton]
  constructor
  · rintro (⟨_, hc⟩ | ⟨hk, _⟩)
    · exact hc
    · omega
  · intro hc
    exact Or.inl ⟨key_zero_pos_lt cr.num_pitches r h2 hr hkey, hc⟩

lemma rowSupport_one_posmax (cr : OWTCriteria) (h2 : 2 ≤ cr.num_pitches) (r : ℕ)
    (hr : r < cr.num_pitches * (cr.num_pitches - 1)) (hkey : 1 ≤ r % cr.num_pitches)
    (hpos : ¬ (r % cr.num_pitches + r / cr.num_pitches) % cr.num_pitches <
      cr.num_pitches - 1) :
    rowSupport (populate_source_matrix cr) (cr.num_pitches - 1) r =
      {r % cr.num_pitches - 1} := by
  ext c
  rw [rowSupport_mem cr h2 r hr c, Finset.mem_singleton]
  constructor
  · rintro (⟨hp, _⟩ | ⟨_, hc⟩)
    · exact absurd hp hpos
    · exact hc
  · intro hc
    exact Or.inr ⟨hkey, hc⟩

/-! ### Totality of the two vector builders under the preconditions -/

lemma populate_ideal_ok (cr : OWTCriteria)
    (hlen : cr.ideal_intervals.length = cr.num_pitches - 1) :
    populate_ideal_interval_vector cr =
      Except.ok ((List.range (cr.num_pitches * (cr.num_pitches - 1))).map (fun i =>
        if i / cr.num_pitches + i % cr.num_pitches < cr.num_pitches - 1 then
          cr.ideal_intervals.getD (i / cr.num_pitches) 0
        else cr.ideal_intervals.getD (i / cr.num_pitches) 0 - cr.repeat_factor)) := by
  rw [populate_ideal_interval_vector]
  apply mapM_ok_of_forall
  intro i hi
  dsimp only
  rw [List.mem_range] at hi
  rcases Nat.eq_zero_or_pos cr.num_pitches with h0 | hn
  · rw [h0] at hi
    exact absurd hi (by omega)
  have hbase : i / cr.num_pitches < cr.num_pitches - 1 :=
    interval_class_lt cr.num_pitches i hn hi
  have hb : i / cr.num_pitches < cr.ideal_intervals.length := by omega
  split_ifs
  · exact vecIndex_ok _ _ _ hb
  · rw [vecIndex_ok _ _ _ hb]
    rfl

lemma populate_weights_ok (cr : OWTCriteria)
    (hlen1 : cr.interval_weights.length = cr.num_pitches - 1)
    (hlen2 : cr.key_weights.length = cr.num_pitches) :
    populate_weights_vector cr =
      Except.ok ((List.range (cr.num_pitches * (cr.num_pitches - 1))).map (fun i =>
        cr.interval_weights.getD (i / cr.num_pitches) 0 *
          cr.key_weights.getD (i % cr.num_pitches) 0)) := by
  rw [populate_weights_vector]
  apply mapM_ok_of_forall
  intro i hi
  dsimp only
  rw [List.mem_range] at hi
  rcases Nat.eq_zero_or_pos cr.num_pitches with h0 | hn
  · rw [h0] at hi
    exact absurd hi (by omega)
  have hbase : i / cr.num_pitches < cr.num_pitches - 1 :=
    interval_class_lt cr.num_pitches i hn hi
  rw [vecIndex_ok _ _ _ (by omega), vecIndex_ok _ _ _ (by
    rw [hlen2]; exact Nat.mod_lt _ hn)]
  rfl

lemma getD_map_range (g : ℕ → ℚ) (sz r : ℕ) (hr : r < sz) :
    ((List.range sz).map g).getD r 0 = g r := by
  rw [List.getD_eq_getElem?_getD, List.getElem?_map, List.getElem?_range hr]
  rfl

/-! ### Scale invariance of the solve under rescaled interval weights -/

lemma vecIndex_map (f : ℚ → ℚ) (l : List ℚ) (i : ℕ) (e : RustPanic) :
    vecIndex (l.map f) i e = Except.map f (vecIndex l i e) := by
  rw [vecIndex, vecIndex, List.getElem?_map]
  cases l[i]? <;> rfl

lemma weights_scaled (cr : OWTCriteria) (c : ℚ) (wl : List ℚ)
    (hw : populate_weights_vector cr = Except.ok wl) :
    populate_weights_vector (scaleIntervalWeights cr c) =
      Except.ok (wl.map fun x => c * x) := by
  have hw2 : (List.range (cr.num_pitches * (cr.num_pitches - 1))).mapM (fun i => do
      let iw ← vecIndex cr.interval_weights (i / cr.num_pitches) RustPanic.idxIntervalWeights
      let kw ← vecIndex cr.key_weights (i % cr.num_pitches) RustPanic.idxKeyWeights
      pure (iw * kw)) = Except.ok wl := hw
  have hstep := mapM_map_of_forall
    (fun i => do
      let iw ← vecIndex cr.interval_weights (i / cr.num_pitches) RustPanic.idxIntervalWeights
      let kw ← vecIndex cr.key_weights (i % cr.num_pitches) RustPanic.idxKeyWeights
      pure (iw * kw))
    (fun i => do
      let iw ← vecIndex (cr.interval_weights.map fun x => c * x) (i / cr.num_pitches)
        RustPanic.idxIntervalWeights
      let kw ← vecIndex cr.key_weights (i % cr.num_pitches) RustPanic.idxKeyWeights
      pure (iw * kw))
    (fun x => c * x)
    (List.range (cr.num_pitches * (cr.num_pitches - 1)))
    (by
      intro i _
      dsimp only
      rw [vecIndex_map]
      cases hiv : vecIndex cr.interval_weights (i / cr.num_pitches)
          RustPanic.idxIntervalWeights with
      | error e => rfl
      | ok v =>
        cases hik : vecIndex cr.key_weights (i % cr.num_pitches)
            RustPanic.idxKeyWeights with
        | error e => rfl
        | ok k =>
          show Except.ok (c * v * k) = Except.ok (c * (v * k))
          rw [mul_assoc])
  show (List.range (cr.num_pitches * (cr.num_pitches - 1))).mapM (fun i => do
      let iw ← vecIndex (cr.interval_weights.map fun x => c * x) (i / cr.num_pitches)
        RustPanic.idxIntervalWeights
      let kw ← vecIndex cr.key_weights (i % cr.num_pitches) RustPanic.idxKeyWeights
      pure (iw * kw)) = Except.ok (wl.map fun x => c * x)
  rw [hstep, hw2]
  rfl

lemma weightMat_scaled (n : ℕ) (wl : List ℚ) (c : ℚ) :
    weightMat n (wl.map fun x => c * x) = c • weightMat n wl := by
  have hfun : (fun i : Fin (n * (n - 1)) => (wl.map fun x => c * x).getD i 0) =
      c • (fun i : Fin (n * (n - 1)) => wl.getD i 0) := by
    funext i
    rw [Pi.smul_apply, smul_eq_mul, getD_map_mul]
  rw [weightMat, weightMat, hfun, Matrix.diagonal_smul]

lemma solveWLS_scale (n : ℕ) (Af : ℕ → ℕ → ℚ) (bl wl : List ℚ) (c : ℚ) (hc : c ≠ 0)
    (xs : List ℚ) (h : solveWLS n Af bl wl = Except.ok xs) :
    solveWLS n Af bl (wl.map fun x => c * x) = Except.ok xs := by
  have hM : normalMat n Af (wl.map fun x => c * x) = c • normalMat n Af wl := by
    rw [normalMat, normalMat, weightMat_scaled, Matrix.mul_smul, Matrix.smul_mul]
  rw [solveWLS] at h
  by_cases hd : (normalMat n Af wl).det = 0
  · rw [if_pos hd] at h
    exact absurd h (by simp)
  rw [if_neg hd] at h
  rw [solveWLS]
  simp only [hM, weightMat_scaled, Matrix.det_smul, Matrix.adjugate_smul, Fintype.card_fin]
  rw [if_neg (mul_ne_zero (pow_ne_zero _ hc) hd)]
  rw [← h]
  congr 1
  rw [List.ofFn_inj]
  rcases Nat.eq_zero_or_pos (n - 1) with h0 | hpos
  · funext x
    exact absurd x.2 (by omega)
  · congr 1
    conv_rhs => rw [Matrix.smul_mul, Matrix.smul_mul]
    conv_lhs => rw [smul_smul, Matrix.smul_mul, Matrix.smul_mul, Matrix.mul_smul, smul_smul]
    congr 1
    have hm : c ^ (n - 1 - 1) * c = c ^ (n - 1) := by
      rw [← pow_succ]
      congr 1
      omega
    rw [mul_assoc, hm, mul_inv, mul_comm ((c ^ (n - 1))⁻¹) ((normalMat n Af wl).det)⁻¹,
      mul_assoc, inv_mul_cancel₀ (pow_ne_zero _ hc), mul_one]

/-- Rescaling every interval weight by a nonzero constant leaves a successful
solve unchanged. -/
lemma optimize_scale (cr : OWTCriteria) (c : ℚ) (hc : c ≠ 0) (xs : List ℚ)
    (h : optimize_temperament cr = Except.ok xs) :
    optimize_temperament (scaleIntervalWeights cr c) = Except.ok xs := by
  rw [optimize_temperament] at h
  cases hb : populate_ideal_interval_vector cr with
  | error e => rw [hb] at h; exact absurd h (by simp)
  | ok bl =>
  simp only [hb] at h
  cases hw : populate_weights_vector cr with
  | error e => rw [hw] at h; exact absurd h (by simp)
  | ok wl =>
  simp only [hw] at h
  rw [optimize_temperament]
  simp only [show populate_ideal_interval_vector (scaleIntervalWeights cr c) =
    Except.ok bl from hb]
  simp only [weights_scaled cr c wl hw]
  exact solveWLS_scale cr.num_pitches (populate_source_matrix cr) bl wl c hc xs h

/-! ## Claim theorems -/

/-- C1: whenever the three builders succeed and the weighted normal-equations
matrix `M = Aᵀ W A` is not invertible (`det M = 0`, the exact-arithmetic
condition under which nalgebra's Gauss-Jordan `inv()` returns `None`),
`optimize_temperament` reaches the source's `panic!("What!!")` site — embedded
as the distinguished value `RustPanic.whatSingular` — and never returns a
(possibly wrong) tuning vector.  Note: in the Rust source this is a *panic*,
an uncontrolled termination with the message "What!!", not a returned,
catchable error value as the claim demands; the claim's "never a silent wrong
answer" half holds, its "catchable error value" half does not. -/
theorem singular_system_panics (cr : OWTCriteria) (bl wl : List ℚ)
    (hb : populate_ideal_interval_vector cr = Except.ok bl)
    (hw : populate_weights_vector cr = Except.ok wl)
    (hd : (normalMat cr.num_pitches (populate_source_matrix cr) wl).det = 0) :
    optimize_temperament cr = Except.error RustPanic.whatSingular := by
  rw [optimize_temperament]
  simp only [hb, hw]
  rw [solveWLS]
  rw [if_pos hd]

/-- Witness for C1 at the concrete singular criteria (`n = 2`, zero interval
weight): the embedded solver reaches the panic site. -/
theorem singular_system_panics_witness :
    optimize_temperament singularCriteria = Except.error RustPanic.whatSingular :=
  singular_system_panics singularCriteria [600, -600] [0, 0]
    singular_ideal_eval singular_weights_eval singular_det_zero

/-- C2: on the test criteria (`n = 3`, `repeat_factor = 1200`,
`ideal_intervals = [0, 702]`, `interval_weights = [1e-6, 1]`,
`key_weights = [1, 1e-4, 1]`) the design matrix has rows
`[1,0],[-1,1],[0,-1],[0,1],[-1,0],[1,-1]`, the target vector is
`[0, 0, -1200, 702, -498, -498]`, the weight vector is
`[1e-6, 1e-10, 1e-6, 1, 1e-4, 1]`, and the solved tuning vector is within
`0.01` of `[204.059, 702.030]` componentwise. -/
theorem end_to_end_example :
    (∀ r, r < 6 → ∀ c, c < 2 → populate_source_matrix testCriteria r c =
      (([[1, 0], [-1, 1], [0, -1], [0, 1], [-1, 0], [1, -1]] : List (List ℚ)).getD r
        []).getD c 0) ∧
    populate_ideal_interval_vector testCriteria =
      Except.ok [0, 0, -1200, 702, -498, -498] ∧
    populate_weights_vector testCriteria =
      Except.ok [1/1000000, 1/10000000000, 1/1000000, 1, 1/10000, 1] ∧
    ∃ xs, optimize_temperament testCriteria = Except.ok xs ∧ xs.length = 2 ∧
      |xs.getD 0 0 - 204059/1000| < 1/100 ∧ |xs.getD 1 0 - 70203/100| < 1/100 := by
  refine ⟨by decide, ?_, ?_, xTest, opt_test_eval, ?_, ?_, ?_⟩
  · rw [test_ideal_eval]
    rfl
  · rw [test_weights_eval]
    rfl
  · rw [xTest]
    rfl
  · rw [xTest]
    rw [show (([33346453308500/163415841617, 114722772308500/163415841617] :
      List ℚ).getD 0 0) = 33346453308500/163415841617 from rfl, abs_lt]
    constructor <;> norm_num
  · rw [xTest]
    rw [show (([33346453308500/163415841617, 114722772308500/163415841617] :
      List ℚ).getD 1 0) = 114722772308500/163415841617 from rfl, abs_lt]
    constructor <;> norm_num

/-- C3: for criteria with `num_pitches = n ≥ 2`, the design matrix is the
`n·(n-1) × (n-1)` matrix that is zero everywhere except that each row `r`
(with `key = r % n`, `interval_class = r / n`, `neg_index = key - 1`,
`pos_index = (key + interval_class) % n`) holds `-1` at `neg_index` whenever
`0 ≤ neg_index < n - 1` (in `ℕ`: `1 ≤ key`, the bound `neg_index < n - 1`
being automatic) and `+1` at `pos_index` whenever `pos_index < n - 1`. -/
theorem populate_source_matrix_spec (cr : OWTCriteria) (h2 : 2 ≤ cr.num_pitches) :
    (∀ r c, populate_source_matrix cr r c ≠ 0 →
      r < cr.num_pitches * (cr.num_pitches - 1) ∧ c < cr.num_pitches - 1) ∧
    (∀ r, r < cr.num_pitches * (cr.num_pitches - 1) →
      ((1 ≤ r % cr.num_pitches ∧ r % cr.num_pitches - 1 < cr.num_pitches - 1) →
        populate_source_matrix cr r (r % cr.num_pitches - 1) = -1) ∧
      ((r % cr.num_pitches + r / cr.num_pitches) % cr.num_pitches < cr.num_pitches - 1 →
        populate_source_matrix cr r
          ((r % cr.num_pitches + r / cr.num_pitches) % cr.num_pitches) = 1) ∧
      (∀ c, ¬(1 ≤ r % cr.num_pitches ∧ c = r % cr.num_pitches - 1) →
        ¬((r % cr.num_pitches + r / cr.num_pitches) % cr.num_pitches < cr.num_pitches - 1 ∧
          c = (r % cr.num_pitches + r / cr.num_pitches) % cr.num_pitches) →
        populate_source_matrix cr r c = 0)) := by
  constructor
  · intro r c hne
    constructor
    · by_contra hr
      push_neg at hr
      exact hne (populate_source_matrix_row_oob cr r c hr)
    · by_contra hc
      push_neg at hc
      exact hne (populate_source_matrix_col_oob cr r c hc)
  · intro r hr
    have hkeylt : r % cr.num_pitches < cr.num_pitches := Nat.mod_lt _ (by omega)
    refine ⟨?_, ?_, ?_⟩
    · rintro ⟨hkey, _⟩
      rw [populate_source_matrix_entry cr r _ hr]
      simp only [sourceEntry]
      rw [if_neg, if_pos ⟨hkey, hkeylt, trivial⟩]
      rintro ⟨_, hceq⟩
      exact pos_ne_neg cr.num_pitches r h2 hr hkey hceq.symm
    · intro hpos
      rw [populate_source_matrix_entry cr r _ hr]
      simp only [sourceEntry]
      rw [if_pos ⟨hpos, trivial⟩]
    · intro c hnneg hnpos
      rcases Nat.lt_or_ge c (cr.num_pitches - 1) with hc | hc
      · rw [populate_source_matrix_entry cr r c hr]
        simp only [sourceEntry]
        rw [if_neg hnpos, if_neg (fun hcond => hnneg ⟨hcond.1, hcond.2.2⟩)]
      · exact populate_source_matrix_col_oob cr r c hc

/-- Witness for C3 at the test criteria, row `1` (`key = 1`, class `0`):
the `+1` entry sits at `pos_index = 1` and the `-1` entry at `neg_index = 0`. -/
theorem populate_source_matrix_spec_witness :
    populate_source_matrix testCriteria 1 1 = 1 ∧
    populate_source_matrix testCriteria 1 0 = -1 :=
  ⟨((populate_source_matrix_spec testCriteria (by decide)).2 1 (by decide)).2.1 (by decide),
   ((populate_source_matrix_spec testCriteria (by decide)).2 1 (by decide)).1 (by decide)⟩

/-- C4: for valid criteria (`n ≥ 2`, `ideal_intervals` of length `n - 1`),
the target-vector builder succeeds, produces `n·(n-1)` entries, and entry `r`
equals `ideal_intervals[r / n]` when `r / n + r % n < n - 1` and
`ideal_intervals[r / n] - repeat_factor` exactly otherwise. -/
theorem populate_ideal_interval_vector_spec (cr : OWTCriteria)
    (h2 : 2 ≤ cr.num_pitches)
    (hlen : cr.ideal_intervals.length = cr.num_pitches - 1) :
    ∃ bl, populate_ideal_interval_vector cr = Except.ok bl ∧
      bl.length = cr.num_pitches * (cr.num_pitches - 1) ∧
      ∀ r, r < cr.num_pitches * (cr.num_pitches - 1) →
        bl.getD r 0 =
          if r / cr.num_pitches + r % cr.num_pitches < cr.num_pitches - 1 then
            cr.ideal_intervals.getD (r / cr.num_pitches) 0
          else cr.ideal_intervals.getD (r / cr.num_pitches) 0 - cr.repeat_factor := by
  refine ⟨_, populate_ideal_ok cr hlen, ?_, ?_⟩
  · rw [List.length_map, List.length_range]
  · intro r hr
    rw [getD_map_range _ _ _ hr]

/-- Witness for C4 at the test criteria. -/
theorem populate_ideal_interval_vector_spec_witness :
    ∃ bl, populate_ideal_interval_vector testCriteria = Except.ok bl ∧
      bl.length = 6 ∧
      ∀ r, r < 6 →
        bl.getD r 0 =
          if r / 3 + r % 3 < 2 then ([0, 702] : List ℚ).getD (r / 3) 0
          else ([0, 702] : List ℚ).getD (r / 3) 0 - 1200 :=
  populate_ideal_interval_vector_spec testCriteria (by decide) (by decide)

/-- C5: for valid criteria, the weight-vector builder succeeds and entry `r`
is the product `interval_weights[r / n] * key_weights[r % n]`. -/
theorem populate_weights_vector_spec (cr : OWTCriteria)
    (h2 : 2 ≤ cr.num_pitches)
    (hlen1 : cr.interval_weights.length = cr.num_pitches - 1)
    (hlen2 : cr.key_weights.length = cr.num_pitches) :
    ∃ wl, populate_weights_vector cr = Except.ok wl ∧
      wl.length = cr.num_pitches * (cr.num_pitches - 1) ∧
      ∀ r, r < cr.num_pitches * (cr.num_pitches - 1) →
        wl.getD r 0 =
          cr.interval_weights.getD (r / cr.num_pitches) 0 *
            cr.key_weights.getD (r % cr.num_pitches) 0 := by
  refine ⟨_, populate_weights_ok cr hlen1 hlen2, ?_, ?_⟩
  · rw [List.length_map, List.length_range]
  · intro r hr
    rw [getD_map_range _ _ _ hr]

/-- Witness for C5 at the test criteria. -/
theorem populate_weights_vector_spec_witness :
    ∃ wl, populate_weights_vector testCriteria = Except.ok wl ∧
      wl.length = 6 ∧
      ∀ r, r < 6 →
        wl.getD r 0 =
          ([1/1000000, 1] : List ℚ).getD (r / 3) 0 *
            ([1, 1/10000, 1] : List ℚ).getD (r % 3) 0 :=
  populate_weights_vector_spec testCriteria (by decide) (by decide) (by decide)

/-- C6: multiplying every `interval_weights` entry by a positive constant `c`
does not change the tuning vector returned by a successful solve. -/
theorem optimize_temperament_scale_invariance (cr : OWTCriteria) (c : ℚ)
    (hc : 0 < c) (xs : List ℚ) (h : optimize_temperament cr = Except.ok xs) :
    optimize_temperament (scaleIntervalWeights cr c) = Except.ok xs :=
  optimize_scale cr c (ne_of_gt hc) xs h

/-- Witness for C6: doubling the interval weights of the test criteria
returns the identical exact tuning vector. -/
theorem optimize_temperament_scale_invariance_witness :
    optimize_temperament (scaleIntervalWeights testCriteria 2) = Except.ok xTest :=
  optimize_temperament_scale_invariance testCriteria 2 (by norm_num) xTest opt_test_eval

/-- C7: the code performs no precondition validation at all.  A criteria set
with an over-long `ideal_intervals` (3 entries for `n = 3`) is silently
accepted — the design matrix and every other artifact are built, the extra
entry is ignored, and the solve returns the same tuning vector as the valid
test criteria — and a criteria set with `num_pitches = 1 < 2` is also
silently accepted, returning an empty tuning vector.  Neither input is
rejected before matrix construction, and no descriptive error
distinguishing the malformed field exists anywhere in the code. -/
theorem precondition_violations_not_rejected :
    optimize_temperament overlongCriteria = Except.ok xTest ∧
    optimize_temperament degenerateCriteria = Except.ok [] :=
  ⟨opt_overlong_eval, opt_degenerate_eval⟩

/-- C8: for `n ≥ 2` the design matrix has shape `n·(n-1) × (n-1)` (nonzero
entries only inside those bounds), each row has at most 2 nonzero entries
among its `n-1` columns, every entry is `0`, `+1` or `-1`, and the `-1`
column and the `+1` column of a row never coincide. -/
theorem design_matrix_shape_spec (cr : OWTCriteria) (h2 : 2 ≤ cr.num_pitches) :
    (∀ r c, populate_source_matrix cr r c ≠ 0 →
      r < cr.num_pitches * (cr.num_pitches - 1) ∧ c < cr.num_pitches - 1) ∧
    ∀ r, r < cr.num_pitches * (cr.num_pitches - 1) →
      (rowSupport (populate_source_matrix cr) (cr.num_pitches - 1) r).card ≤ 2 ∧
      (∀ c, populate_source_matrix cr r c = 0 ∨ populate_source_matrix cr r c = 1 ∨
        populate_source_matrix cr r c = -1) ∧
      (1 ≤ r % cr.num_pitches →
        (r % cr.num_pitches + r / cr.num_pitches) % cr.num_pitches < cr.num_pitches - 1 →
        r % cr.num_pitches - 1 ≠
          (r % cr.num_pitches + r / cr.num_pitches) % cr.num_pitches) := by
  constructor
  · intro r c hne
    constructor
    · by_contra hr
      push_neg at hr
      exact hne (populate_source_matrix_row_oob cr r c hr)
    · by_contra hc
      push_neg at hc
      exact hne (populate_source_matrix_col_oob cr r c hc)
  · intro r hr
    refine ⟨?_, ?_, ?_⟩
    · by_cases hkey : 1 ≤ r % cr.num_pitches
      · by_cases hpos : (r % cr.num_pitches + r / cr.num_pitches) % cr.num_pitches <
            cr.num_pitches - 1
        · rw [rowSupport_two cr h2 r hr hkey hpos]
          exact le_trans (Finset.card_insert_le _ _) (by rw [Finset.card_singleton])
        · rw [rowSupport_one_posmax cr h2 r hr hkey hpos, Finset.card_singleton]
          omega
      · rw [rowSupport_one_keyzero cr h2 r hr (by omega), Finset.card_singleton]
        omega
    · intro c
      rcases Nat.lt_or_ge c (cr.num_pitches - 1) with hc | hc
      · rw [populate_source_matrix_entry cr r c hr]
        exact sourceEntry_values cr.num_pitches r c
      · rw [populate_source_matrix_col_oob cr r c hc]
        exact Or.inl rfl
    · intro hkey hpos
      exact (pos_ne_neg cr.num_pitches r h2 hr hkey).symm

/-- Witness for C8 at the test criteria, row `1`. -/
theorem design_matrix_shape_spec_witness :
    (rowSupport (populate_source_matrix testCriteria) (testCriteria.num_pitches - 1) 1).card
      ≤ 2 :=
  (((design_matrix_shape_spec testCriteria (by decide)).2 1 (by decide))).1

/-- C9: every row of the design matrix has at least one nonzero entry.  Rows
with `key = 0` or with `pos_index = n - 1` have exactly one; all other rows
have exactly two; and `key = 0` together with `pos_index = n - 1` is
impossible (it would force `interval_class = n - 1`). -/
theorem design_matrix_rows_nonzero (cr : OWTCriteria) (h2 : 2 ≤ cr.num_pitches) :
    ∀ r, r < cr.num_pitches * (cr.num_pitches - 1) →
      1 ≤ (rowSupport (populate_source_matrix cr) (cr.num_pitches - 1) r).card ∧
      ¬(r % cr.num_pitches = 0 ∧
        (r % cr.num_pitches + r / cr.num_pitches) % cr.num_pitches =
          cr.num_pitches - 1) ∧
      ((r % cr.num_pitches = 0 ∨
        (r % cr.num_pitches + r / cr.num_pitches) % cr.num_pitches =
          cr.num_pitches - 1) →
        (rowSupport (populate_source_matrix cr) (cr.num_pitches - 1) r).card = 1) ∧
      ((r % cr.num_pitches ≠ 0 ∧
        (r % cr.num_pitches + r / cr.num_pitches) % cr.num_pitches ≠
          cr.num_pitches - 1) →
        (rowSupport (populate_source_matrix cr) (cr.num_pitches - 1) r).card = 2) := by
  intro r hr
  have himp : ¬(r % cr.num_pitches = 0 ∧
      (r % cr.num_pitches + r / cr.num_pitches) % cr.num_pitches =
        cr.num_pitches - 1) := by
    rintro ⟨hk0, hpmax⟩
    have := key_zero_pos_lt cr.num_pitches r h2 hr hk0
    omega
  have hcard1 : (r % cr.num_pitches = 0 ∨
      (r % cr.num_pitches + r / cr.num_pitches) % cr.num_pitches =
        cr.num_pitches - 1) →
      (rowSupport (populate_source_matrix cr) (cr.num_pitches - 1) r).card = 1 := by
    rintro (hk0 | hpmax)
    · rw [rowSupport_one_keyzero cr h2 r hr hk0, Finset.card_singleton]
    · have hkey : 1 ≤ r % cr.num_pitches := by
        rcases Nat.eq_zero_or_pos (r % cr.num_pitches) with hk0 | hk
        · exact absurd ⟨hk0, hpmax⟩ himp
        · exact hk
      rw [rowSupport_one_posmax cr h2 r hr hkey (by omega), Finset.card_singleton]
  have hcard2 : (r % cr.num_pitches ≠ 0 ∧
      (r % cr.num_pitches + r / cr.num_pitches) % cr.num_pitches ≠
        cr.num_pitches - 1) →
      (rowSupport (populate_source_matrix cr) (cr.num_pitches - 1) r).card = 2 := by
    rintro ⟨hk, hp⟩
    have hposlt : (r % cr.num_pitches + r / cr.num_pitches) % cr.num_pitches <
        cr.num_pitches := Nat.mod_lt _ (by omega)
    rw [rowSupport_two cr h2 r hr (by omega) (by omega)]
    exact Finset.card_pair (pos_ne_neg cr.num_pitches r h2 hr (by omega))
  refine ⟨?_, himp, hcard1, hcard2⟩
  by_cases hk : r % cr.num_pitches = 0
  · rw [hcard1 (Or.inl hk)]
  · by_cases hp : (r % cr.num_pitches + r / cr.num_pitches) % cr.num_pitches =
        cr.num_pitches - 1
    · rw [hcard1 (Or.inr hp)]
    · rw [hcard2 ⟨hk, hp⟩]
      omega

/-- Witness for C9 at the test criteria, row `1` (two nonzero entries). -/
theorem design_matrix_rows_nonzero_witness :
    1 ≤ (rowSupport (populate_source_matrix testCriteria)
      (testCriteria.num_pitches - 1) 1).card :=
  ((design_matrix_rows_nonzero testCriteria (by decide)) 1 (by decide)).1

/-- C10: under the preconditions every index the three builders compute is in
bounds — `r / n ≤ n - 2` for `ideal_intervals`/`interval_weights`,
`r % n ≤ n - 1` for `key_weights`, every matrix store lands inside the
`n·(n-1) × (n-1)` matrix (entries outside it stay `0`) — so the out-of-bounds
panic branch of each builder is unreachable and all three builders are total
(both fallible builders return `Except.ok`). -/
theorem builders_total_spec (cr : OWTCriteria) (h2 : 2 ≤ cr.num_pitches)
    (hlen1 : cr.ideal_intervals.length = cr.num_pitches - 1)
    (hlen2 : cr.interval_weights.length = cr.num_pitches - 1)
    (hlen3 : cr.key_weights.length = cr.num_pitches) :
    (∀ r, r < cr.num_pitches * (cr.num_pitches - 1) →
      r / cr.num_pitches < cr.num_pitches - 1 ∧ r % cr.num_pitches < cr.num_pitches) ∧
    (∀ r c, cr.num_pitches * (cr.num_pitches - 1) ≤ r ∨ cr.num_pitches - 1 ≤ c →
      populate_source_matrix cr r c = 0) ∧
    (∃ bl, populate_ideal_interval_vector cr = Except.ok bl) ∧
    (∃ wl, populate_weights_vector cr = Except.ok wl) := by
  refine ⟨?_, ?_, ⟨_, populate_ideal_ok cr hlen1⟩, ⟨_, populate_weights_ok cr hlen2 hlen3⟩⟩
  · intro r hr
    exact ⟨interval_class_lt _ r (by omega) hr, Nat.mod_lt _ (by omega)⟩
  · rintro r c (hr | hc)
    · exact populate_source_matrix_row_oob cr r c hr
    · exact populate_source_matrix_col_oob cr r c hc

/-- Witness for C10 at the test criteria: both fallible builders succeed. -/
theorem builders_total_spec_witness :
    (∃ bl, populate_ideal_interval_vector testCriteria = Except.ok bl) ∧
    (∃ wl, populate_weights_vector testCriteria = Except.ok wl) :=
  ⟨(builders_total_spec testCriteria (by decide) (by decide) (by decide)
      (by decide)).2.2.1,
   (builders_total_spec testCriteria (by decide) (by decide) (by decide)
      (by decide)).2.2.2⟩
